import Mathlib

/-!
Verification of the Z402 client SDK core against its design specification.

The development shallowly embeds the three core subsystems of the Python SDK
(`z402/utils/budget.py`, `z402/utils/webhook.py`, `z402/utils/retry.py`,
`z402/utils/http.py`) as executable Lean definitions, and proves or refutes
the frozen specification claims about them.

Modelling conventions:
- `Decimal` amounts are modelled as `ℚ` (every decimal is an exact rational;
  the source never uses floats for limit enforcement).
- `datetime` instants are modelled as `ℤ` (seconds); `timedelta(days=1)` is
  86400 seconds and `timedelta(hours=1)` is 3600 seconds, matching the
  source's use of wall-clock arithmetic.
- Python strings in the webhook module are modelled as `List Char`, so that
  `str.split` becomes `List.splitOn` and parsing is structurally recursive.
- Python truthiness matters in the source (`if self.hourly_limit:`,
  `if error.retry_after:`, `if retry_after:`): a `Decimal` or `int` equal to
  zero and an empty string are falsy.  The embedding reproduces this
  faithfully with explicit zero/empty tests.
- Stateful methods become explicit state passing: a method of `BudgetManager`
  becomes a function taking the transaction list (and the `datetime.now()`
  values it reads) and returning the result together with the new list.
-/

namespace Z402

/-! ### Spend ledger (z402/utils/budget.py)

`BudgetManager.__init__` stores `daily_limit`, optional `hourly_limit` and
optional `transaction_limit` as `Decimal`s, plus a lock and a list of
transaction records.  The record dictionaries appended by `record_spend`
carry `amount`, `transaction_id`, `timestamp` and `metadata`.
-/

/-- SpendRecord models one dictionary appended by `record_spend`:
`{"amount": ..., "transaction_id": ..., "timestamp": ..., "metadata": ...}`.
Metadata values are modelled as string pairs (the source stores an arbitrary
dict; its content never influences any computation). -/
structure SpendRecord where
  amount : ℚ
  transaction_id : String
  timestamp : ℤ
  metadata : List (String × String)
  deriving Repr, DecidableEq

/-- BudgetLimits models the three limits stored by `BudgetManager.__init__`. -/
structure BudgetLimits where
  daily_limit : ℚ
  hourly_limit : Option ℚ
  transaction_limit : Option ℚ
  deriving Repr, DecidableEq

/-- Python truthiness of an optional `Decimal`: `None` and `Decimal(0)` are
falsy.  Used where the source writes `if self.hourly_limit:` and
`if self.transaction_limit and ...:`. -/
def decimalTruthy : Option ℚ → Bool
  | none => false
  | some x => decide (x ≠ 0)

/-- sumWindow models `sum(Decimal(tx["amount"]) for tx in self._transactions
if tx["timestamp"] >= start)`. -/
def sumWindow (txs : List SpendRecord) (start : ℤ) : ℚ :=
  ((txs.filter (fun tx => decide (start ≤ tx.timestamp))).map SpendRecord.amount).sum

/-- canSpend models `BudgetManager.can_spend`, evaluated at wall-clock time
`now` (the single `datetime.now()` the method reads).  The state `txs` is
read under the lock and not mutated. -/
def canSpend (lim : BudgetLimits) (txs : List SpendRecord) (now : ℤ) (amount : ℚ) : Bool :=
  if decimalTruthy lim.transaction_limit &&
      decide (amount > lim.transaction_limit.getD 0) then
    false
  else
    let daily_spent := sumWindow txs (now - 86400)
    if daily_spent + amount > lim.daily_limit then
      false
    else
      if decimalTruthy lim.hourly_limit then
        let hourly_spent := sumWindow txs (now - 3600)
        if hourly_spent + amount > lim.hourly_limit.getD 0 then
          false
        else
          true
      else
        true

/-- can_spend_op is `can_spend` as a state transformer: the method acquires
the lock, reads `_transactions`, and returns without mutating, so the state
component of the result is the input state. -/
def can_spend_op (lim : BudgetLimits) (txs : List SpendRecord) (now : ℤ) (amount : ℚ) :
    Bool × List SpendRecord :=
  (canSpend lim txs now amount, txs)

/-- BudgetExceededInfo models the payload of `BudgetExceededError` raised by
`record_spend`: `limit=str(self.daily_limit)` and
`current=str(await self.get_daily_spent())`. -/
structure BudgetExceededInfo where
  limit : ℚ
  current : ℚ
  deriving Repr, DecidableEq

/-- record_spend models `BudgetManager.record_spend` as a state transformer.
`tCheck` is the `datetime.now()` read inside the `can_spend` call (also used
for the `get_daily_spent` snapshot in the error payload) and `tAppend` the
`datetime.now()` read when the record is appended; in the source these are
two separate reads with `tCheck ≤ tAppend`.  When the check fails the method
raises before touching `_transactions`, so the state is returned unchanged. -/
def record_spend (lim : BudgetLimits) (txs : List SpendRecord) (tCheck tAppend : ℤ)
    (amount : ℚ) (transaction_id : String) (metadata : List (String × String)) :
    Option BudgetExceededInfo × List SpendRecord :=
  if canSpend lim txs tCheck amount then
    (none, txs ++ [{ amount := amount, transaction_id := transaction_id,
                     timestamp := tAppend, metadata := metadata }])
  else
    (some { limit := lim.daily_limit, current := sumWindow txs (tCheck - 86400) }, txs)

/-- get_daily_spent models `BudgetManager.get_daily_spent`. -/
def get_daily_spent (txs : List SpendRecord) (now : ℤ) : ℚ :=
  sumWindow txs (now - 86400)

/-- get_hourly_spent models `BudgetManager.get_hourly_spent`. -/
def get_hourly_spent (txs : List SpendRecord) (now : ℤ) : ℚ :=
  sumWindow txs (now - 3600)

/-- get_remaining_daily models `BudgetManager.get_remaining_daily`. -/
def get_remaining_daily (lim : BudgetLimits) (txs : List SpendRecord) (now : ℤ) : ℚ :=
  lim.daily_limit - get_daily_spent txs now

/-- get_transaction_history models `BudgetManager.get_transaction_history`:
records with `timestamp >= now - hours * 3600`, in stored order. -/
def get_transaction_history (txs : List SpendRecord) (now : ℤ) (hours : ℕ) :
    List SpendRecord :=
  txs.filter (fun tx => decide (now - hours * 3600 ≤ tx.timestamp))

/-- BudgetStats models the dictionary returned by `get_statistics`; the
hourly keys are present only when `self.hourly_limit` is truthy, and
`transaction_limit` only when that limit is truthy.  Monetary values are the
exact decimals (the source stringifies them); `*_usage_percent` is the exact
value of the ratio the source converts to float for display. -/
structure BudgetStats where
  daily_limit : ℚ
  daily_spent : ℚ
  daily_remaining : ℚ
  daily_usage_percent : ℚ
  hourly_limit : Option ℚ
  hourly_spent : Option ℚ
  hourly_remaining : Option ℚ
  hourly_usage_percent : Option ℚ
  transaction_limit : Option ℚ
  deriving Repr, DecidableEq

/-- get_statistics models `BudgetManager.get_statistics`, with both windowed
sums evaluated at `now`. -/
def get_statistics (lim : BudgetLimits) (txs : List SpendRecord) (now : ℤ) : BudgetStats :=
  let daily_spent := get_daily_spent txs now
  let hourly_spent := get_hourly_spent txs now
  { daily_limit := lim.daily_limit
    daily_spent := daily_spent
    daily_remaining := lim.daily_limit - daily_spent
    daily_usage_percent := daily_spent / lim.daily_limit * 100
    hourly_limit := if decimalTruthy lim.hourly_limit then lim.hourly_limit else none
    hourly_spent := if decimalTruthy lim.hourly_limit then some hourly_spent else none
    hourly_remaining :=
      if decimalTruthy lim.hourly_limit then some (lim.hourly_limit.getD 0 - hourly_spent) else none
    hourly_usage_percent :=
      if decimalTruthy lim.hourly_limit then
        some (hourly_spent / lim.hourly_limit.getD 0 * 100)
      else none
    transaction_limit :=
      if decimalTruthy lim.transaction_limit then lim.transaction_limit else none }

/-- racy_double_record_spend replays the interleaving of two concurrent
`record_spend` calls that the source's locking admits: `record_spend` first
runs `can_spend` (which acquires and releases `self._lock`) and only then
acquires the lock a second time for the append.  Between A's check and A's
append, B's check may run against the un-appended state.  The four atomic
critical sections execute in the order A-check, B-check, A-append, B-append;
each is expressed with the same `canSpend` and append used by
`record_spend`.  Returns whether each call succeeded and the final ledger. -/
def racy_double_record_spend (lim : BudgetLimits) (txs : List SpendRecord) (now : ℤ)
    (amountA amountB : ℚ) (idA idB : String) :
    Bool × Bool × List SpendRecord :=
  let okA := canSpend lim txs now amountA
  let okB := canSpend lim txs now amountB
  let s1 := if okA then
    txs ++ [{ amount := amountA, transaction_id := idA, timestamp := now, metadata := [] }]
    else txs
  let s2 := if okB then
    s1 ++ [{ amount := amountB, transaction_id := idB, timestamp := now, metadata := [] }]
    else s1
  (okA, okB, s2)

/-! ### Webhook authenticator (z402/utils/webhook.py)

Python strings are modelled as `List Char`; `str.split(sep)` for a one-char
separator is `List.splitOn`, and `s.split(sep, 1)[1]` (split with maxsplit 1,
taking the remainder) is `splitOnceTail`.  Python's `int(...)` on the
timestamp string is modelled by `parseInt` (optional sign followed by
decimal digits; the whitespace/underscore liberality of `int` is not claim
relevant), and `f"{timestamp}"`, i.e. `str` of an int, by `intRepr`.
`hmac.new(secret, msg, sha256).hexdigest()` is an opaque keyed function
passed as the `hmacSha256Hex` parameter; `hmac.compare_digest` is equality
(its constant-time execution has no functional content).  The payload is
taken in the structured (`dict`) form of the source's `Union`: `dumps`
models `json.dumps(payload, separators=(",", ":"))`, and a successful
verification returns the payload itself, as the source's dict branch does. -/

/-- parseNat models reading an unsigned decimal integer: all characters must
be digits and the list non-empty. -/
def parseNat (s : List Char) : Option ℕ :=
  if s ≠ [] && s.all Char.isDigit then
    some (s.foldl (fun acc c => 10 * acc + (c.toNat - 48)) 0)
  else none

/-- parseInt models Python `int(...)` on a signed decimal string. -/
def parseInt (s : List Char) : Option ℤ :=
  match s with
  | [] => none
  | c :: rest =>
    if c = '-' then
      match parseNat rest with
      | some n => some (-(n : ℤ))
      | none => none
    else if c = '+' then
      match parseNat rest with
      | some n => some ((n : ℤ))
      | none => none
    else
      match parseNat (c :: rest) with
      | some n => some ((n : ℤ))
      | none => none

/-- digitChar is the decimal digit character for `d < 10` (and '9' above). -/
def digitChar (d : ℕ) : Char :=
  if d = 0 then '0' else if d = 1 then '1' else if d = 2 then '2'
  else if d = 3 then '3' else if d = 4 then '4' else if d = 5 then '5'
  else if d = 6 then '6' else if d = 7 then '7' else if d = 8 then '8'
  else '9'

/-- natReprGo writes the decimal digits of `n`, most significant first, with
explicit fuel so that the definition is structurally recursive. -/
def natReprGo : ℕ → ℕ → List Char
  | 0, _ => []
  | fuel + 1, n => if n = 0 then [] else natReprGo fuel (n / 10) ++ [digitChar (n % 10)]

/-- natRepr is the decimal representation of a natural number. -/
def natRepr (n : ℕ) : List Char :=
  if n = 0 then ['0'] else natReprGo n n

/-- intRepr models Python `str` of an `int`. -/
def intRepr (t : ℤ) : List Char :=
  if t < 0 then '-' :: natRepr t.natAbs else natRepr t.natAbs

/-- splitOnceTail models Python `s.split(sep, 1)[1]`: everything after the
first occurrence of `sep` (the empty string when `sep` does not occur, a
case the source never reaches because the part is known to contain `sep`). -/
def splitOnceTail (sep : Char) (s : List Char) : List Char :=
  List.intercalate [sep] (s.splitOn sep).tail

/-- WebhookError enumerates the `WebhookVerificationError` messages raised
by `verify_webhook`, in source order. -/
inductive WebhookError where
  | missingSignature
  | missingSecret
  | invalidFormat
  | invalidTimestamp
  | timestampTooOld
  | invalidSignature
  deriving Repr, DecidableEq

/-- signedPayload models `f"{timestamp}.{payload_string}"`. -/
def signedPayload {J : Type} (dumps : J → List Char) (timestamp : ℤ) (payload : J) :
    List Char :=
  intRepr timestamp ++ '.' :: dumps payload

/-- verify_webhook models `verify_webhook(payload, signature, secret,
tolerance)` evaluated when `int(time.time())` reads `now`, for a structured
payload (the source's dict branch, which returns the payload unchanged on
success). -/
def verify_webhook {J : Type} (dumps : J → List Char)
    (hmacSha256Hex : List Char → List Char → List Char) (now : ℤ) (payload : J)
    (signature : List Char) (secret : List Char) (tolerance : ℤ) :
    Except WebhookError J :=
  if signature = [] then .error .missingSignature
  else if secret = [] then .error .missingSecret
  else
    let parts := signature.splitOn ','
    match parts.find? (fun p => ['t','='].isPrefixOf p),
          parts.find? (fun p => ['v','1','='].isPrefixOf p) with
    | some timestamp_part, some signature_part =>
      let timestamp_str := splitOnceTail '=' timestamp_part
      let provided_signature := splitOnceTail '=' signature_part
      match parseInt timestamp_str with
      | none => .error .invalidTimestamp
      | some timestamp =>
        if |now - timestamp| > tolerance then .error .timestampTooOld
        else
          let expected_signature := hmacSha256Hex secret (signedPayload dumps timestamp payload)
          if expected_signature = provided_signature then .ok payload
          else .error .invalidSignature
    | _, _ => .error .invalidFormat

/-- construct_webhook_signature models `construct_webhook_signature(payload,
secret)` evaluated when `int(time.time())` reads `now`: the header
`t=<now>,v1=<hex_mac>`. -/
def construct_webhook_signature {J : Type} (dumps : J → List Char)
    (hmacSha256Hex : List Char → List Char → List Char) (now : ℤ) (payload : J)
    (secret : List Char) : List Char :=
  ['t','='] ++ intRepr now ++ [','] ++ ['v','1','='] ++
    hmacSha256Hex secret (signedPayload dumps now payload)

/-! ### Error taxonomy (z402/exceptions.py) and retry (z402/utils/retry.py)

`Z402Error` subclasses are modelled as one inductive.  Each constructor
carries its message plus the machine-usable payload fields the subclass
adds (`details`, being an opaque `Any` used only for display, is omitted).
`status_code` is the value the subclass constructor hard-wires
(`NetworkError` sets `status_code=0`, which is falsy in Python). -/

/-- SdkError models the `Z402Error` subclasses raised by the HTTP client. -/
inductive SdkError where
  | authenticationError (message : String)
  | invalidRequestError (message : String)
  | paymentRequiredError (message : String) (amount : Option String) (resource : Option String)
  | notFoundError (message : String)
  | rateLimitError (message : String) (retryAfter : Option ℤ)
  | apiError (message : String) (statusCode : ℕ)
  | networkError (message : String)
  deriving Repr, DecidableEq

/-- statusCode gives `error.status_code` as set by each subclass constructor. -/
def SdkError.statusCode : SdkError → Option ℕ
  | .authenticationError _ => some 401
  | .invalidRequestError _ => some 400
  | .paymentRequiredError _ _ _ => some 402
  | .notFoundError _ => some 404
  | .rateLimitError _ _ => some 429
  | .apiError _ sc => some sc
  | .networkError _ => some 0

/-- is_retryable_error models `is_retryable_error`: network errors, then
rate-limit errors, then any `Z402Error` whose `status_code` is truthy and in
`[500, 600)`. -/
def is_retryable_error (error : SdkError) : Bool :=
  match error with
  | .networkError _ => true
  | .rateLimitError _ _ => true
  | _ =>
    match error.statusCode with
    | some sc => decide (sc ≠ 0) && (decide (500 ≤ sc) && decide (sc < 600))
    | none => false

/-- nextWait is the delay slept before a retry: `min(error.retry_after,
max_delay)` for a rate-limit error whose `retry_after` is truthy, otherwise
`min(delay, max_delay)`.  Delays are exact rationals standing for the
source's floats. -/
def nextWait (max_delay delay : ℚ) (error : SdkError) : ℚ :=
  match error with
  | .rateLimitError _ (some ra) =>
    if ra ≠ 0 then min (ra : ℚ) max_delay else min delay max_delay
  | _ => min delay max_delay

/-- RetryTrace records the observable behaviour of one `retry_with_backoff`
run: the final result (`.error e` models raising `e`), the number of times
the wrapped function was invoked, and the successive `asyncio.sleep`
durations. -/
structure RetryTrace (T : Type) where
  result : Except SdkError T
  attempts : ℕ
  waits : List ℚ
  deriving Repr

/-- retryAux runs the `for attempt in range(max_retries + 1)` loop.  `fuel`
is the number of retries still allowed (`max_retries - attempt`): when it is
zero, `attempt == max_retries` and any error — retryable or not — is raised;
otherwise a non-retryable error is raised at once, and a retryable one
triggers `asyncio.sleep(next wait)` followed by `delay *= backoff_multiplier`
and the next iteration.  `op n` is the outcome of the n-th invocation of the
wrapped function (0-based). -/
def retryAux {T : Type} (op : ℕ → Except SdkError T) (max_delay backoff_multiplier : ℚ) :
    ℕ → ℕ → ℚ → List ℚ → RetryTrace T
  | 0, attempt, _, waits =>
    match op attempt with
    | .ok v => ⟨.ok v, attempt + 1, waits⟩
    | .error e => ⟨.error e, attempt + 1, waits⟩
  | fuel + 1, attempt, delay, waits =>
    match op attempt with
    | .ok v => ⟨.ok v, attempt + 1, waits⟩
    | .error e =>
      if is_retryable_error e then
        let d := nextWait max_delay delay e
        retryAux op max_delay backoff_multiplier fuel (attempt + 1)
          (d * backoff_multiplier) (waits ++ [d])
      else ⟨.error e, attempt + 1, waits⟩

/-- retry_with_backoff models the decorator applied to an operation whose
n-th invocation yields `op n`: the loop starts at attempt 0 with
`delay = initial_delay` and allows `max_retries` retries. -/
def retry_with_backoff {T : Type} (max_retries : ℕ)
    (initial_delay max_delay backoff_multiplier : ℚ) (op : ℕ → Except SdkError T) :
    RetryTrace T :=
  retryAux op max_delay backoff_multiplier max_retries 0 initial_delay []

/-- backoffSchedule is the sequence of waits the loop produces from a given
current delay when every error takes the plain-backoff branch: each wait is
`min(delay, max_delay)` and the next delay is that wait times the
multiplier. -/
def backoffSchedule (max_delay backoff_multiplier : ℚ) : ℚ → ℕ → List ℚ
  | _, 0 => []
  | delay, fuel + 1 =>
    min delay max_delay ::
      backoffSchedule max_delay backoff_multiplier (min delay max_delay * backoff_multiplier) fuel

/-! ### HTTP client (z402/utils/http.py) -/

/-- ResponseBody models the JSON-decoded response body fields that
`_handle_response` reads: `data["error"]["message"]`, `data["message"]`,
`data["payment"]["amount"]` and `data["payment"]["resource"]` (each absent
key reads as `None` through `.get`). -/
structure ResponseBody where
  errorMessage : Option String
  topMessage : Option String
  paymentAmount : Option String
  paymentResource : Option String
  deriving Repr, DecidableEq

/-- pyStrTruthy maps a Python `str`-or-`None` to `none` when falsy (absent
or empty), modelling the `or` chains of `_handle_response`. -/
def pyStrTruthy : Option String → Option String
  | none => none
  | some s => if s = "" then none else some s

/-- responseMessage models `data.get("error", {}).get("message") or
data.get("message") or "API error"`. -/
def responseMessage (body : ResponseBody) : String :=
  ((pyStrTruthy body.errorMessage).getD ((pyStrTruthy body.topMessage).getD "API error"))

/-- pyIsSpace is CPython's `Py_ISSPACE` on ASCII characters, the whitespace
`int(str)` strips from both ends. -/
def pyIsSpace (c : Char) : Bool :=
  c = ' ' || c = '\t' || c = '\n' || c = '\x0b' || c = '\x0c' || c = '\r'

/-- pyStrip strips surrounding whitespace the way `int(str)` does before
parsing. -/
def pyStrip (s : List Char) : List Char :=
  ((s.dropWhile pyIsSpace).reverse.dropWhile pyIsSpace).reverse

/-- underscoreDigitsTail accepts the continuation of a Python decimal
`digitpart` after its first digit: digits, with a single underscore allowed
only between two digits. -/
def underscoreDigitsTail : List Char → Bool
  | [] => true
  | [c] => c.isDigit
  | c :: d :: rest =>
    if c = '_' then d.isDigit && underscoreDigitsTail rest
    else c.isDigit && underscoreDigitsTail (d :: rest)

/-- pyDigits? reads a Python decimal `digitpart` (a digit, then digits with
single underscores between digits) and yields its value, ignoring the
underscores. -/
def pyDigits? (s : List Char) : Option ℕ :=
  match s with
  | [] => none
  | c :: rest =>
    if c.isDigit && underscoreDigitsTail rest then
      some ((s.filter (fun x => x ≠ '_')).foldl (fun acc d => 10 * acc + (d.toNat - 48)) 0)
    else none

/-- pyToInt? models CPython `int(str)` in the decimal forms the header can
carry: surrounding ASCII whitespace is stripped, then an optional single
sign precedes a digitpart; `none` is the `ValueError` case.  (Non-ASCII
digit forms are not modelled.) -/
def pyToInt? (s : List Char) : Option ℤ :=
  match pyStrip s with
  | [] => none
  | c :: rest =>
    if c = '-' then
      match pyDigits? rest with
      | some n => some (-(n : ℤ))
      | none => none
    else if c = '+' then
      match pyDigits? rest with
      | some n => some ((n : ℤ))
      | none => none
    else
      match pyDigits? (c :: rest) with
      | some n => some ((n : ℤ))
      | none => none

/-- response_ok models `aiohttp.ClientResponse.ok`, which is
`400 > status`. -/
def response_ok (status : ℕ) : Bool :=
  decide (status < 400)

/-- HandleResponseOutcome is what running `_handle_response` can do: return
the decoded body, raise one of the `Z402Error` subclasses, or — in the 429
branch only — let the `ValueError` of the unguarded
`int(retry_after)` escape, since that call sits in no try/except. -/
inductive HandleResponseOutcome where
  | ok (body : ResponseBody)
  | raised (e : SdkError)
  | uncaughtValueError
  deriving Repr, DecidableEq

/-- raisesRateLimit observes whether an outcome is a raised
`RateLimitError`. -/
def raisesRateLimit : HandleResponseOutcome → Bool
  | .raised (.rateLimitError _ _) => true
  | _ => false

/-- handle_response models `AsyncHTTPClient._handle_response` on a response
with the given status, decoded body and `retry-after` header.  The 429
branch runs `int(retry_after) if retry_after else None`: an absent or empty
(falsy) header gives `retry_after=None`, a parsable one gives its value, and
a present non-numeric one makes the bare `int()` raise an uncaught
`ValueError`. -/
def handle_response (status : ℕ) (body : ResponseBody) (retryAfterHeader : Option String) :
    HandleResponseOutcome :=
  if response_ok status then .ok body
  else
    let message := responseMessage body
    if status = 401 then .raised (.authenticationError message)
    else if status = 400 then .raised (.invalidRequestError message)
    else if status = 402 then
      .raised (.paymentRequiredError message body.paymentAmount body.paymentResource)
    else if status = 404 then .raised (.notFoundError message)
    else if status = 429 then
      match retryAfterHeader with
      | none => .raised (.rateLimitError message none)
      | some s =>
        if s = "" then .raised (.rateLimitError message none)
        else
          match pyToInt? s.data with
          | some n => .raised (.rateLimitError message (some n))
          | none => .uncaughtValueError
    else .raised (.apiError message status)

/-- classify_transport_failure models the `except` clauses of
`AsyncHTTPClient.request`: both `asyncio.TimeoutError` and
`aiohttp.ClientError` are re-raised as `NetworkError`. -/
def classify_transport_failure (message : String) : SdkError :=
  .networkError message

/-- base_headers is the literal dict built first by `_build_headers`. -/
def base_headers (api_key : String) : String → Option String :=
  fun k =>
    if k = "Content-Type" then some "application/json"
    else if k = "X-API-Key" then some api_key
    else if k = "User-Agent" then some "z402-python-sdk/0.1.0"
    else none

/-- build_headers models `_build_headers`: the base dict, then
`headers.update(custom_headers)` when custom headers are given — on
lookup, a key bound by the custom dict takes the custom value (dict
`update` replaces colliding keys), any other key keeps its base value. -/
def build_headers (api_key : String) (custom_headers : Option (String → Option String)) :
    String → Option String :=
  match custom_headers with
  | none => base_headers api_key
  | some custom => fun k =>
    match custom k with
    | some v => some v
    | none => base_headers api_key k

/-! ### Helper lemmas about decimal representations -/

theorem digitChar_isDigit (d : ℕ) : (digitChar d).isDigit = true := by
  unfold digitChar
  repeat' split
  all_goals decide

theorem digitChar_toNat (d : ℕ) (h : d < 10) : (digitChar d).toNat - 48 = d := by
  unfold digitChar
  interval_cases d <;> decide

theorem natReprGo_all_digits (fuel n : ℕ) : (natReprGo fuel n).all Char.isDigit = true := by
  induction fuel generalizing n with
  | zero => rfl
  | succ fuel ih =>
    unfold natReprGo
    by_cases h : n = 0
    · simp [h]
    · simp only [h, if_false, List.all_append, ih, List.all_cons, List.all_nil,
        digitChar_isDigit, Bool.and_self]

theorem natRepr_all_digits (n : ℕ) : (natRepr n).all Char.isDigit = true := by
  unfold natRepr
  by_cases h : n = 0
  · simp [h]
  · simp [h, natReprGo_all_digits]

theorem natRepr_ne_nil (n : ℕ) : natRepr n ≠ [] := by
  unfold natRepr
  by_cases h : n = 0
  · simp [h]
  · rcases n with _ | m
    · exact absurd rfl h
    · simp only [h, if_false]
      unfold natReprGo
      simp [h]

theorem natReprGo_foldl (fuel : ℕ) :
    ∀ n, n ≤ fuel →
      (natReprGo fuel n).foldl (fun acc c => 10 * acc + (c.toNat - 48)) 0 = n := by
  induction fuel with
  | zero =>
    intro n hn
    interval_cases n
    rfl
  | succ fuel ih =>
    intro n hn
    by_cases h : n = 0
    · simp [natReprGo, h]
    · have hdiv : n / 10 < n := Nat.div_lt_self (Nat.pos_of_ne_zero h) (by norm_num)
      have hdivle : n / 10 ≤ fuel := by omega
      have hmod : n % 10 < 10 := Nat.mod_lt _ (by norm_num)
      unfold natReprGo
      simp only [h, if_false, List.foldl_append, ih (n / 10) hdivle, List.foldl_cons,
        List.foldl_nil, digitChar_toNat _ hmod]
      omega

theorem parseNat_natRepr (n : ℕ) : parseNat (natRepr n) = some n := by
  by_cases h : n = 0
  · subst h
    rfl
  · unfold parseNat
    rw [if_pos]
    · have : natRepr n = natReprGo n n := by simp [natRepr, h]
      rw [this, natReprGo_foldl n n le_rfl]
    · simp only [Bool.and_eq_true, decide_eq_true_eq]
      exact ⟨natRepr_ne_nil n, natRepr_all_digits n⟩

theorem mem_natRepr_isDigit {c : Char} {n : ℕ} (h : c ∈ natRepr n) : c.isDigit = true := by
  have := natRepr_all_digits n
  rw [List.all_eq_true] at this
  exact this c h

theorem parseInt_intRepr (t : ℤ) : parseInt (intRepr t) = some t := by
  by_cases ht : t < 0
  · have hrepr : intRepr t = '-' :: natRepr t.natAbs := by simp [intRepr, ht]
    rw [hrepr]
    simp only [parseInt, if_pos rfl, parseNat_natRepr]
    rw [Int.ofNat_natAbs_of_nonpos (le_of_lt ht), neg_neg]
    simp
  · have hrepr : intRepr t = natRepr t.natAbs := by simp [intRepr, ht]
    rcases hcons : natRepr t.natAbs with _ | ⟨c, cs⟩
    · exact absurd hcons (natRepr_ne_nil _)
    · have hcdig : c.isDigit = true := mem_natRepr_isDigit (by rw [hcons]; exact List.mem_cons_self _ _)
      have hc1 : c ≠ '-' := by
        intro hc
        rw [hc] at hcdig
        exact absurd hcdig (by decide)
      have hc2 : c ≠ '+' := by
        intro hc
        rw [hc] at hcdig
        exact absurd hcdig (by decide)
      rw [hrepr, hcons]
      simp only [parseInt, if_neg hc1, if_neg hc2, ← hcons, parseNat_natRepr]
      rw [Int.natAbs_of_nonneg (not_lt.mp ht)]

theorem mem_intRepr {c : Char} {t : ℤ} (h : c ∈ intRepr t) :
    c.isDigit = true ∨ c = '-' := by
  unfold intRepr at h
  by_cases ht : t < 0
  · simp only [ht, if_true, List.mem_cons] at h
    rcases h with h | h
    · exact Or.inr h
    · exact Or.inl (mem_natRepr_isDigit h)
  · simp only [ht, if_false] at h
    exact Or.inl (mem_natRepr_isDigit h)

theorem comma_not_mem_intRepr (t : ℤ) : ',' ∉ intRepr t := by
  intro h
  rcases mem_intRepr h with h | h
  · exact absurd h (by decide)
  · exact absurd h (by decide)

theorem eq_char_not_mem_intRepr (t : ℤ) : '=' ∉ intRepr t := by
  intro h
  rcases mem_intRepr h with h | h
  · exact absurd h (by decide)
  · exact absurd h (by decide)

/-- verify_webhook_construct evaluates `verify_webhook` on a header built by
`construct_webhook_signature` at timestamp `t` over payload `payloadC` and
secret `secretC`, verified at time `now` against payload `payloadV` and
secret `secretV`: parsing always succeeds, then the freshness check and the
MAC comparison decide the outcome.  The two membership hypotheses hold for
the real hex-encoded HMAC, whose alphabet is `[0-9a-f]`. -/
theorem verify_webhook_construct {J : Type} (dumps : J → List Char)
    (hm : List Char → List Char → List Char) (payloadC payloadV : J)
    (secretC secretV : List Char) (t now tolerance : ℤ)
    (hsecV : secretV ≠ [])
    (hmc : ',' ∉ hm secretC (signedPayload dumps t payloadC))
    (hme : '=' ∉ hm secretC (signedPayload dumps t payloadC)) :
    verify_webhook dumps hm now payloadV
      (construct_webhook_signature dumps hm t payloadC secretC) secretV tolerance =
      if |now - t| > tolerance then .error .timestampTooOld
      else if hm secretV (signedPayload dumps t payloadV) =
          hm secretC (signedPayload dumps t payloadC) then .ok payloadV
      else .error .invalidSignature := by
  set mac := hm secretC (signedPayload dumps t payloadC) with hmacdef
  have hsig : construct_webhook_signature dumps hm t payloadC secretC =
      [','].intercalate ['t' :: '=' :: intRepr t, 'v' :: '1' :: '=' :: mac] := by
    simp [construct_webhook_signature, List.intercalate]
  have hsplit : (construct_webhook_signature dumps hm t payloadC secretC).splitOn ',' =
      ['t' :: '=' :: intRepr t, 'v' :: '1' :: '=' :: mac] := by
    rw [hsig]
    apply List.splitOn_intercalate
    · intro l hl
      simp only [List.mem_cons, List.not_mem_nil, or_false] at hl
      rcases hl with rfl | rfl
      · intro hmem
        simp only [List.mem_cons] at hmem
        rcases hmem with h | h | h
        · exact absurd h (by decide)
        · exact absurd h (by decide)
        · exact comma_not_mem_intRepr t h
      · intro hmem
        simp only [List.mem_cons] at hmem
        rcases hmem with h | h | h | h
        · exact absurd h (by decide)
        · exact absurd h (by decide)
        · exact absurd h (by decide)
        · exact hmc h
    · simp
  have hts : splitOnceTail '=' ('t' :: '=' :: intRepr t) = intRepr t := by
    have h1 : ('t' :: '=' :: intRepr t) = ['='].intercalate [['t'], intRepr t] := by
      simp [List.intercalate]
    have h2 : ('t' :: '=' :: intRepr t).splitOn '=' = [['t'], intRepr t] := by
      rw [h1]
      apply List.splitOn_intercalate
      · intro l hl
        simp only [List.mem_cons, List.not_mem_nil, or_false] at hl
        rcases hl with rfl | rfl
        · decide
        · exact eq_char_not_mem_intRepr t
      · simp
    unfold splitOnceTail
    rw [h2]
    simp [List.intercalate]
  have hps : splitOnceTail '=' ('v' :: '1' :: '=' :: mac) = mac := by
    have h1 : ('v' :: '1' :: '=' :: mac) = ['='].intercalate [['v','1'], mac] := by
      simp [List.intercalate]
    have h2 : ('v' :: '1' :: '=' :: mac).splitOn '=' = [['v','1'], mac] := by
      rw [h1]
      apply List.splitOn_intercalate
      · intro l hl
        simp only [List.mem_cons, List.not_mem_nil, or_false] at hl
        rcases hl with rfl | rfl
        · decide
        · exact hme
      · simp
    unfold splitOnceTail
    rw [h2]
    simp [List.intercalate]
  have hne : construct_webhook_signature dumps hm t payloadC secretC ≠ [] := by
    rw [hsig]
    simp [List.intercalate]
  have hfind1 : List.find? (fun p => ['t','='].isPrefixOf p)
      ['t' :: '=' :: intRepr t, 'v' :: '1' :: '=' :: mac] =
      some ('t' :: '=' :: intRepr t) := by
    simp [List.find?, List.isPrefixOf]
  have hfind2 : List.find? (fun p => ['v','1','='].isPrefixOf p)
      ['t' :: '=' :: intRepr t, 'v' :: '1' :: '=' :: mac] =
      some ('v' :: '1' :: '=' :: mac) := by
    simp [List.find?, List.isPrefixOf]
  unfold verify_webhook
  rw [if_neg hne, if_neg hsecV]
  simp only [hsplit, hfind1, hfind2, hts, hps, parseInt_intRepr]

/-! ### Claim C3 -/

/-- C3: for every payload and every non-empty secret,
`verify_webhook(payload, construct_webhook_signature(payload, secret),
secret)` evaluated within the freshness tolerance of construction succeeds
and returns the original payload; altering the payload or the secret between
construction and verification (so that the recomputed HMAC-SHA256 digest
differs, which is what a byte alteration produces absent a SHA-256
collision) makes `verify_webhook` fail.  The two membership hypotheses state
that the hex digest contains no `,` or `=`, true of the hex alphabet. -/
theorem C3_webhook_roundtrip {J : Type} (dumps : J → List Char)
    (hm : List Char → List Char → List Char) (payload payload2 : J)
    (secret secret2 : List Char) (t now tolerance : ℤ)
    (hsec : secret ≠ []) (hsec2 : secret2 ≠ [])
    (hfresh : |now - t| ≤ tolerance)
    (hmc : ',' ∉ hm secret (signedPayload dumps t payload))
    (hme : '=' ∉ hm secret (signedPayload dumps t payload))
    (haltp : hm secret (signedPayload dumps t payload2) ≠
      hm secret (signedPayload dumps t payload))
    (halts : hm secret2 (signedPayload dumps t payload) ≠
      hm secret (signedPayload dumps t payload)) :
    verify_webhook dumps hm now payload
      (construct_webhook_signature dumps hm t payload secret) secret tolerance =
      .ok payload
    ∧ verify_webhook dumps hm now payload2
      (construct_webhook_signature dumps hm t payload secret) secret tolerance =
      .error .invalidSignature
    ∧ verify_webhook dumps hm now payload
      (construct_webhook_signature dumps hm t payload secret) secret2 tolerance =
      .error .invalidSignature := by
  have hnot : ¬(|now - t| > tolerance) := not_lt.mpr hfresh
  refine ⟨?_, ?_, ?_⟩
  · rw [verify_webhook_construct dumps hm payload payload secret secret t now tolerance
      hsec hmc hme, if_neg hnot, if_pos rfl]
  · rw [verify_webhook_construct dumps hm payload payload2 secret secret t now tolerance
      hsec hmc hme, if_neg hnot, if_neg haltp]
  · rw [verify_webhook_construct dumps hm payload payload secret secret2 t now tolerance
      hsec2 hmc hme, if_neg hnot, if_neg halts]

/-- C3 witness: a concrete instantiation with `dumps = id` on raw character
payloads, a concrete keyed MAC, payloads `"a"` and `"b"`, secrets `"k"` and
`"q"`, construction at time 1000 and verification at time 1100 with the
default tolerance 300. -/
theorem C3_webhook_roundtrip_witness :
    verify_webhook (J := List Char) id (fun s m => s ++ m) 1100 ['a']
      (construct_webhook_signature id (fun s m => s ++ m) 1000 ['a'] ['k']) ['k'] 300 =
      .ok ['a']
    ∧ verify_webhook (J := List Char) id (fun s m => s ++ m) 1100 ['b']
      (construct_webhook_signature id (fun s m => s ++ m) 1000 ['a'] ['k']) ['k'] 300 =
      .error .invalidSignature
    ∧ verify_webhook (J := List Char) id (fun s m => s ++ m) 1100 ['a']
      (construct_webhook_signature id (fun s m => s ++ m) 1000 ['a'] ['k']) ['q'] 300 =
      .error .invalidSignature :=
  C3_webhook_roundtrip id (fun s m => s ++ m) ['a'] ['b'] ['k'] ['q'] 1000 1100 300
    (by decide) (by decide) (by decide) (by decide) (by decide) (by decide) (by decide)

/-! ### Claim C4 -/

/-- C4: verification of a well-formed signature with timestamp component `t`
fails with the freshness error exactly when `|now - t| > tolerance` — both
older-than-tolerance and future-skewed timestamps are rejected — and
concretely it fails at `now = t + tolerance + 1` while at
`now = t + tolerance - 1` the freshness check passes (and the whole
verification succeeds when the MAC matches). -/
theorem C4_webhook_freshness {J : Type} (dumps : J → List Char)
    (hm : List Char → List Char → List Char) (payload : J) (secret : List Char)
    (t now tolerance : ℤ)
    (hsec : secret ≠ [])
    (hmc : ',' ∉ hm secret (signedPayload dumps t payload))
    (hme : '=' ∉ hm secret (signedPayload dumps t payload))
    (htol : 1 ≤ tolerance) :
    (verify_webhook dumps hm now payload
        (construct_webhook_signature dumps hm t payload secret) secret tolerance =
        .error .timestampTooOld ↔ |now - t| > tolerance)
    ∧ verify_webhook dumps hm (t + tolerance + 1) payload
        (construct_webhook_signature dumps hm t payload secret) secret tolerance =
        .error .timestampTooOld
    ∧ verify_webhook dumps hm (t + tolerance - 1) payload
        (construct_webhook_signature dumps hm t payload secret) secret tolerance =
        .ok payload := by
  refine ⟨?_, ?_, ?_⟩
  · rw [verify_webhook_construct dumps hm payload payload secret secret t now tolerance
      hsec hmc hme]
    by_cases h : |now - t| > tolerance
    · simp [h]
    · rw [if_neg h, if_pos rfl]
      simp only [h, iff_false]
      intro hcontra
      exact Except.noConfusion hcontra
  · rw [verify_webhook_construct dumps hm payload payload secret secret t
      (t + tolerance + 1) tolerance hsec hmc hme, if_pos (by rw [abs_of_nonneg] <;> omega)]
  · rw [verify_webhook_construct dumps hm payload payload secret secret t
      (t + tolerance - 1) tolerance hsec hmc hme,
      if_neg (by rw [not_lt, abs_of_nonneg] <;> omega), if_pos rfl]

/-- C4 witness: the freshness biconditional and both boundary instants, at a
concrete payload, secret, MAC and `t = 1000`, `tolerance = 300`,
`now = 1500` (stale by 200 seconds beyond tolerance). -/
theorem C4_webhook_freshness_witness :
    (verify_webhook (J := List Char) id (fun s m => s ++ m) 1500 ['a']
        (construct_webhook_signature id (fun s m => s ++ m) 1000 ['a'] ['k']) ['k'] 300 =
        .error .timestampTooOld ↔ |(1500 : ℤ) - 1000| > 300)
    ∧ verify_webhook (J := List Char) id (fun s m => s ++ m) (1000 + 300 + 1) ['a']
        (construct_webhook_signature id (fun s m => s ++ m) 1000 ['a'] ['k']) ['k'] 300 =
        .error .timestampTooOld
    ∧ verify_webhook (J := List Char) id (fun s m => s ++ m) (1000 + 300 - 1) ['a']
        (construct_webhook_signature id (fun s m => s ++ m) 1000 ['a'] ['k']) ['k'] 300 =
        .ok ['a'] :=
  C4_webhook_freshness id (fun s m => s ++ m) ['a'] ['k'] 1000 1500 300
    (by decide) (by decide) (by decide) (by decide)

/-! ### Helper lemmas about the spend ledger -/

theorem decimalTruthy_eq_true {o : Option ℚ} :
    decimalTruthy o = true ↔ ∃ x, o = some x ∧ x ≠ 0 := by
  cases o <;> simp [decimalTruthy]

theorem sumWindow_append (txs : List SpendRecord) (r : SpendRecord) (start : ℤ) :
    sumWindow (txs ++ [r]) start =
      sumWindow txs start + (if start ≤ r.timestamp then r.amount else 0) := by
  unfold sumWindow
  rw [List.filter_append]
  by_cases h : start ≤ r.timestamp
  · simp [h]
  · simp [h]

theorem sumWindow_mono {txs : List SpendRecord} (hnn : ∀ r ∈ txs, 0 ≤ r.amount)
    {s1 s2 : ℤ} (h : s1 ≤ s2) : sumWindow txs s2 ≤ sumWindow txs s1 := by
  induction txs with
  | nil => simp [sumWindow]
  | cons r rest ih =>
    have hr : 0 ≤ r.amount := hnn r (List.mem_cons_self r rest)
    have hrest : ∀ x ∈ rest, 0 ≤ x.amount := fun x hx => hnn x (List.mem_cons_of_mem r hx)
    unfold sumWindow at ih ⊢
    simp only [List.filter_cons]
    by_cases h2 : s2 ≤ r.timestamp
    · have h1 : s1 ≤ r.timestamp := le_trans h h2
      simp only [h2, h1, decide_eq_true_eq, if_pos, List.map_cons, List.sum_cons, if_true,
        decide_eq_true]
      exact add_le_add_left (ih hrest) _
    · by_cases h1 : s1 ≤ r.timestamp
      · simp [h2, h1]
        exact le_trans (ih hrest) (le_add_of_nonneg_left hr)
      · simp only [h2, h1, decide_eq_false, if_neg, not_false_iff]
        exact ih hrest

theorem canSpend_true_iff (lim : BudgetLimits) (txs : List SpendRecord) (now : ℤ) (a : ℚ) :
    canSpend lim txs now a = true ↔
      ¬(decimalTruthy lim.transaction_limit = true ∧ a > lim.transaction_limit.getD 0)
      ∧ sumWindow txs (now - 86400) + a ≤ lim.daily_limit
      ∧ (decimalTruthy lim.hourly_limit = true →
          sumWindow txs (now - 3600) + a ≤ lim.hourly_limit.getD 0) := by
  unfold canSpend
  split_ifs with h1 h2 <;> simp_all [not_lt]

/-! ### Claim C2 -/

/-- C2 (amended): immediately after each successful `record_spend` on a
ledger of non-negative amounts, the trailing-24h sum of recorded amounts is
at most `daily_limit`, and when `hourly_limit` is configured with a nonzero
value the trailing-1h sum is at most `hourly_limit`.  `tCheck` and `tAppend`
are the two `datetime.now()` reads of one call, in order.  (The unamended
claim is refuted twice by `C2_budget_invariant_cex`: Python treats
`Decimal(0)` as falsy and skips a configured-as-zero hourly check entirely,
and a negative recorded amount that leaves the 24-hour window between the
two clock reads lets the post-append daily sum exceed the limit.) -/
theorem C2_budget_invariant (lim : BudgetLimits) (txs : List SpendRecord)
    (tCheck tAppend : ℤ) (a : ℚ) (tid : String) (md : List (String × String))
    (s2 : List SpendRecord)
    (hnn : ∀ r ∈ txs, 0 ≤ r.amount)
    (hts : tCheck ≤ tAppend)
    (hok : record_spend lim txs tCheck tAppend a tid md = (none, s2)) :
    get_daily_spent s2 tAppend ≤ lim.daily_limit
    ∧ ∀ h : ℚ, lim.hourly_limit = some h → h ≠ 0 → get_hourly_spent s2 tAppend ≤ h := by
  unfold record_spend at hok
  by_cases hcan : canSpend lim txs tCheck a = true
  · rw [if_pos hcan] at hok
    obtain ⟨-, hdaily, hhourly⟩ := (canSpend_true_iff lim txs tCheck a).mp hcan
    have hs2 : s2 = txs ++ [(⟨a, tid, tAppend, md⟩ : SpendRecord)] :=
      (congrArg Prod.snd hok).symm
    subst hs2
    constructor
    · unfold get_daily_spent
      rw [sumWindow_append]
      have hwin : sumWindow txs (tAppend - 86400) ≤ sumWindow txs (tCheck - 86400) :=
        sumWindow_mono hnn (by omega)
      simp only [show tAppend - 86400 ≤ tAppend from by omega, if_pos, if_true]
      calc sumWindow txs (tAppend - 86400) + a
          ≤ sumWindow txs (tCheck - 86400) + a := add_le_add_right hwin a
        _ ≤ lim.daily_limit := hdaily
    · intro h hh hne
      have htruthy : decimalTruthy lim.hourly_limit = true :=
        decimalTruthy_eq_true.mpr ⟨h, hh, hne⟩
      have hcap : sumWindow txs (tCheck - 3600) + a ≤ h := by
        have := hhourly htruthy
        rwa [hh] at this
      unfold get_hourly_spent
      rw [sumWindow_append]
      have hwin : sumWindow txs (tAppend - 3600) ≤ sumWindow txs (tCheck - 3600) :=
        sumWindow_mono hnn (by omega)
      simp only [show tAppend - 3600 ≤ tAppend from by omega, if_pos, if_true]
      calc sumWindow txs (tAppend - 3600) + a
          ≤ sumWindow txs (tCheck - 3600) + a := add_le_add_right hwin a
        _ ≤ h := hcap
  · rw [if_neg hcan] at hok
    exact absurd (congrArg Prod.fst hok) (by simp)

/-- C2 counterexample, in two parts, each refuting the claim as stated.
Part 1: configure `hourly_limit = 0` (`BudgetManager(daily_limit="1.0",
hourly_limit="0")` stores `Decimal(0)`).  A spend of 0.5 succeeds because
`if self.hourly_limit:` is false for `Decimal(0)` and the hourly check is
skipped, yet afterwards the trailing-1h sum 0.5 exceeds the configured
hourly limit 0.  Part 2: with a recorded amount of −5 (amounts are arbitrary
`Decimal` strings; nothing in the source rejects negative ones), timestamped
so that it leaves the 24-hour window between the `datetime.now()` read
inside `can_spend` and the `datetime.now()` read at the append, a spend of 6
against `daily_limit = 1` passes the check (−5 + 6 ≤ 1) and immediately
after the successful call the trailing-24h sum is 6 > 1.  Together these
force both amendments: a nonzero configured `hourly_limit` and non-negative
recorded amounts. -/
theorem C2_budget_invariant_cex :
    (record_spend ⟨1, some 0, none⟩ [] 0 0 (1/2) "t1" [] =
      (none, [(⟨1/2, "t1", 0, []⟩ : SpendRecord)])
    ∧ ¬(get_hourly_spent [(⟨1/2, "t1", 0, []⟩ : SpendRecord)] 0 ≤ 0))
    ∧ (record_spend ⟨1, none, none⟩ [(⟨-5, "neg", 0, []⟩ : SpendRecord)] 86400 86401
        6 "big" [] =
      (none, [(⟨-5, "neg", 0, []⟩ : SpendRecord), (⟨6, "big", 86401, []⟩ : SpendRecord)])
    ∧ ¬(get_daily_spent [(⟨-5, "neg", 0, []⟩ : SpendRecord),
        (⟨6, "big", 86401, []⟩ : SpendRecord)] 86401 ≤ 1)) := by
  refine ⟨⟨?_, ?_⟩, ?_, ?_⟩
  · simp only [record_spend, canSpend, decimalTruthy, sumWindow, List.filter_nil,
      List.map_nil, List.sum_nil, Option.getD]
    norm_num
  · simp only [get_hourly_spent, sumWindow, List.filter_cons, List.filter_nil]
    norm_num
  · simp only [record_spend, canSpend, decimalTruthy, sumWindow, List.filter_cons,
      List.filter_nil, Option.getD]
    norm_num
  · simp only [get_daily_spent, sumWindow, List.filter_cons, List.filter_nil]
    norm_num

/-- C2 witness: a concrete successful `record_spend` of 0.05 on an empty
ledger with limits `{daily = 1, hourly = 0.1}`, after which both windowed
sums are within their limits. -/
theorem C2_budget_invariant_witness :
    get_daily_spent [(⟨1/20, "t1", 5, []⟩ : SpendRecord)] 5 ≤ 1
    ∧ ∀ h : ℚ, (some (1/10) : Option ℚ) = some h → h ≠ 0 →
        get_hourly_spent [(⟨1/20, "t1", 5, []⟩ : SpendRecord)] 5 ≤ h := by
  have := C2_budget_invariant ⟨1, some (1/10), none⟩ [] 0 5 (1/20) "t1" []
    [(⟨1/20, "t1", 5, []⟩ : SpendRecord)]
    (by intro r hr; simp at hr) (by norm_num)
    (by simp only [record_spend, canSpend, decimalTruthy, sumWindow, List.filter_nil,
          List.map_nil, List.sum_nil, Option.getD]
        norm_num)
  exact this

/-! ### Claim C8 -/

/-- C8 (amended): `can_spend` mutates nothing, and — when the optional
limits are configured with nonzero values — it returns `true` exactly when
the amount respects the per-transaction limit, the trailing-24h sum plus the
amount fits the daily limit, and (when an hourly limit is configured) the
trailing-1h sum plus the amount fits the hourly limit.  The scenario of the
claim holds: with limits `{daily = 1, hourly = 0.1, per_tx = 0.05}` three
spends of 0.03 are accepted and a fourth is rejected because 0.12 > 0.1.
(The unamended claim, which does not except limits set to zero, is refuted
by `C8_can_spend_cex`.) -/
theorem C8_can_spend (lim : BudgetLimits) (txs : List SpendRecord) (now : ℤ) (a : ℚ)
    (htx : ∀ l, lim.transaction_limit = some l → l ≠ 0)
    (hh : ∀ h, lim.hourly_limit = some h → h ≠ 0) :
    (can_spend_op lim txs now a).2 = txs
    ∧ (canSpend lim txs now a = true ↔
        (∀ l, lim.transaction_limit = some l → a ≤ l)
        ∧ sumWindow txs (now - 86400) + a ≤ lim.daily_limit
        ∧ (∀ h, lim.hourly_limit = some h → sumWindow txs (now - 3600) + a ≤ h))
    ∧ canSpend ⟨1, some (1/10), some (1/20)⟩ [] 0 (3/100) = true
    ∧ canSpend ⟨1, some (1/10), some (1/20)⟩
        [⟨3/100, "t1", 0, []⟩] 0 (3/100) = true
    ∧ canSpend ⟨1, some (1/10), some (1/20)⟩
        [⟨3/100, "t1", 0, []⟩, ⟨3/100, "t2", 0, []⟩] 0 (3/100) = true
    ∧ canSpend ⟨1, some (1/10), some (1/20)⟩
        [⟨3/100, "t1", 0, []⟩, ⟨3/100, "t2", 0, []⟩, ⟨3/100, "t3", 0, []⟩] 0
        (3/100) = false := by
  refine ⟨rfl, ?_, ?_, ?_, ?_, ?_⟩
  · rw [canSpend_true_iff]
    constructor
    · rintro ⟨h1, h2, h3⟩
      refine ⟨?_, h2, ?_⟩
      · intro l hl
        by_contra hgt
        exact h1 ⟨decimalTruthy_eq_true.mpr ⟨l, hl, htx l hl⟩, by rw [hl]; simpa using not_le.mp hgt⟩
      · intro hq hhl
        have := h3 (decimalTruthy_eq_true.mpr ⟨hq, hhl, hh hq hhl⟩)
        rwa [hhl] at this
    · rintro ⟨h1, h2, h3⟩
      refine ⟨?_, h2, ?_⟩
      · rintro ⟨ht, hgt⟩
        obtain ⟨l, hl, -⟩ := decimalTruthy_eq_true.mp ht
        rw [hl] at hgt
        exact absurd (h1 l hl) (not_le.mpr (by simpa using hgt))
      · intro ht
        obtain ⟨hq, hhl, -⟩ := decimalTruthy_eq_true.mp ht
        rw [hhl]
        simpa using h3 hq hhl
  · simp only [canSpend, decimalTruthy, sumWindow, List.filter_nil, List.map_nil,
      List.sum_nil, Option.getD]
    norm_num
  · simp only [canSpend, decimalTruthy, sumWindow, List.filter_cons, List.filter_nil,
      Option.getD]
    norm_num
  · simp only [canSpend, decimalTruthy, sumWindow, List.filter_cons, List.filter_nil,
      Option.getD]
    norm_num
  · simp only [canSpend, decimalTruthy, sumWindow, List.filter_cons, List.filter_nil,
      Option.getD]
    norm_num

/-- C8 counterexample: a per-transaction limit configured as 0 is skipped by
`if self.transaction_limit and ...` (Python truthiness of `Decimal(0)`), so
a spend of 0.01 — which exceeds the configured limit 0 — is accepted,
refuting "returns false whenever amount exceeds per_transaction_limit (when
set)" as stated. -/
theorem C8_can_spend_cex :
    canSpend ⟨1, none, some 0⟩ [] 0 (1/100) = true ∧ (1 : ℚ)/100 > 0 := by
  constructor
  · simp only [canSpend, decimalTruthy, sumWindow, List.filter_nil, List.map_nil,
      List.sum_nil, Option.getD]
    norm_num
  · norm_num

/-- C8 witness: the amended biconditional instantiated at limits
`{daily = 1, hourly = 0.1, per_tx = 0.05}` on the empty ledger with amount
0.03. -/
theorem C8_can_spend_witness :
    (can_spend_op ⟨1, some (1/10), some (1/20)⟩ [] 0 (3/100)).2 = []
    ∧ (canSpend ⟨1, some (1/10), some (1/20)⟩ [] 0 (3/100) = true ↔
        (∀ l, (some (1/20) : Option ℚ) = some l → 3/100 ≤ l)
        ∧ sumWindow [] ((0 : ℤ) - 86400) + 3/100 ≤ 1
        ∧ (∀ h, (some (1/10) : Option ℚ) = some h → sumWindow [] ((0 : ℤ) - 3600) + 3/100 ≤ h))
    ∧ canSpend ⟨1, some (1/10), some (1/20)⟩ [] 0 (3/100) = true
    ∧ canSpend ⟨1, some (1/10), some (1/20)⟩
        [⟨3/100, "t1", 0, []⟩] 0 (3/100) = true
    ∧ canSpend ⟨1, some (1/10), some (1/20)⟩
        [⟨3/100, "t1", 0, []⟩, ⟨3/100, "t2", 0, []⟩] 0 (3/100) = true
    ∧ canSpend ⟨1, some (1/10), some (1/20)⟩
        [⟨3/100, "t1", 0, []⟩, ⟨3/100, "t2", 0, []⟩, ⟨3/100, "t3", 0, []⟩] 0
        (3/100) = false :=
  C8_can_spend ⟨1, some (1/10), some (1/20)⟩ [] 0 (3/100)
    (by intro l hl; simp at hl; rw [← hl]; norm_num)
    (by intro h hh; simp at hh; rw [← hh]; norm_num)

/-! ### Claim C10 -/

/-- C10: when `record_spend` raises `BudgetExceededError` the ledger is
unchanged — no record is appended, and `can_spend`, `get_daily_spent`,
`get_transaction_history` and `get_statistics` answer exactly as before the
failed call — and when it succeeds exactly the one new record is appended. -/
theorem C10_record_spend_failure_no_mutation (lim : BudgetLimits) (txs : List SpendRecord)
    (tCheck tAppend : ℤ) (a : ℚ) (tid : String) (md : List (String × String)) :
    ((record_spend lim txs tCheck tAppend a tid md).1.isSome →
      (record_spend lim txs tCheck tAppend a tid md).2 = txs
      ∧ (∀ now q, canSpend lim (record_spend lim txs tCheck tAppend a tid md).2 now q =
          canSpend lim txs now q)
      ∧ (∀ now, get_daily_spent (record_spend lim txs tCheck tAppend a tid md).2 now =
          get_daily_spent txs now)
      ∧ (∀ now hours,
          get_transaction_history (record_spend lim txs tCheck tAppend a tid md).2 now hours =
          get_transaction_history txs now hours)
      ∧ (∀ now, get_statistics lim (record_spend lim txs tCheck tAppend a tid md).2 now =
          get_statistics lim txs now))
    ∧ ((record_spend lim txs tCheck tAppend a tid md).1 = none →
      (record_spend lim txs tCheck tAppend a tid md).2 =
        txs ++ [(⟨a, tid, tAppend, md⟩ : SpendRecord)]) := by
  by_cases hcan : canSpend lim txs tCheck a = true
  · constructor
    · intro hs
      rw [record_spend, if_pos hcan] at hs
      simp at hs
    · intro
      rw [record_spend, if_pos hcan]
  · constructor
    · intro
      rw [record_spend, if_neg hcan]
      exact ⟨rfl, fun _ _ => rfl, fun _ => rfl, fun _ _ => rfl, fun _ => rfl⟩
    · intro hn
      rw [record_spend, if_neg hcan] at hn
      simp at hn

/-- C10 witness: a rejected spend of 2 against a daily limit of 1 leaves the
empty ledger untouched; an accepted spend of 0.5 appends exactly its one
record. -/
theorem C10_record_spend_failure_no_mutation_witness :
    (record_spend ⟨1, none, none⟩ [] 0 0 2 "t1" []).2 = []
    ∧ (record_spend ⟨1, none, none⟩ [] 0 0 (1/2) "t2" []).2 =
        [(⟨1/2, "t2", 0, []⟩ : SpendRecord)] :=
  ⟨((C10_record_spend_failure_no_mutation ⟨1, none, none⟩ [] 0 0 2 "t1" []).1
      (by simp only [record_spend, canSpend, decimalTruthy, sumWindow, List.filter_nil,
            List.map_nil, List.sum_nil]
          norm_num)).1,
   (C10_record_spend_failure_no_mutation ⟨1, none, none⟩ [] 0 0 (1/2) "t2" []).2
      (by simp only [record_spend, canSpend, decimalTruthy, sumWindow, List.filter_nil,
            List.map_nil, List.sum_nil]
          norm_num)⟩

/-! ### Claim C1 -/

/-- C1: the claim requires `record_spend` to re-check affordability and
append under one critical section.  The source instead acquires the lock
twice — once inside `can_spend` and once for the append — so the interleaving
A-check, B-check, A-append, B-append of two concurrent `record_spend("0.6")`
calls against `daily_limit = 1` is admitted; both checks see the empty
ledger and pass, both records append, and the trailing-24h sum reaches 1.2,
exceeding the limit.  This refutes "exactly as many acceptances as fit the
budget, never jointly exceeding a limit" for the code as written; the spec's
design note §9 confirms the single-critical-section variant is the intent. -/
theorem C1_race_overspend :
    (racy_double_record_spend ⟨1, none, none⟩ [] 0 (3/5) (3/5) "a" "b").1 = true
    ∧ (racy_double_record_spend ⟨1, none, none⟩ [] 0 (3/5) (3/5) "a" "b").2.1 = true
    ∧ get_daily_spent
        (racy_double_record_spend ⟨1, none, none⟩ [] 0 (3/5) (3/5) "a" "b").2.2 0 > 1 := by
  refine ⟨?_, ?_, ?_⟩ <;>
    · simp only [racy_double_record_spend, canSpend, decimalTruthy, sumWindow,
        get_daily_spent, List.filter_nil, List.filter_cons, List.map_nil, List.sum_nil,
        Option.getD]
      norm_num

/-! ### Helper lemmas about the retry loop -/

theorem retryAux_all_retryable {T : Type} (op : ℕ → Except SdkError T)
    (err : ℕ → SdkError) (md mult : ℚ)
    (hop : ∀ n, op n = .error (err n)) (hr : ∀ n, is_retryable_error (err n) = true) :
    ∀ fuel attempt delay waits,
      (retryAux op md mult fuel attempt delay waits).result = .error (err (attempt + fuel))
      ∧ (retryAux op md mult fuel attempt delay waits).attempts = attempt + fuel + 1 := by
  intro fuel
  induction fuel with
  | zero =>
    intro attempt delay waits
    simp [retryAux, hop attempt]
  | succ fuel ih =>
    intro attempt delay waits
    simp only [retryAux, hop attempt, hr attempt, if_pos, if_true]
    have := ih (attempt + 1) (nextWait md delay (err attempt) * mult)
      (waits ++ [nextWait md delay (err attempt)])
    constructor
    · rw [this.1, show attempt + 1 + fuel = attempt + (fuel + 1) from by omega]
    · rw [this.2]
      omega

theorem retryAux_waits_plain {T : Type} (op : ℕ → Except SdkError T)
    (err : ℕ → SdkError) (md mult : ℚ)
    (hop : ∀ n, op n = .error (err n)) (hr : ∀ n, is_retryable_error (err n) = true)
    (hnw : ∀ n d, nextWait md d (err n) = min d md) :
    ∀ fuel attempt delay waits,
      (retryAux op md mult fuel attempt delay waits).waits =
        waits ++ backoffSchedule md mult delay fuel := by
  intro fuel
  induction fuel with
  | zero =>
    intro attempt delay waits
    simp [retryAux, hop attempt, backoffSchedule]
  | succ fuel ih =>
    intro attempt delay waits
    simp only [retryAux, hop attempt, hr attempt, if_pos, if_true]
    rw [ih (attempt + 1) (nextWait md delay (err attempt) * mult)
      (waits ++ [nextWait md delay (err attempt)]), hnw attempt delay]
    simp [backoffSchedule, hnw attempt delay]

theorem backoffSchedule_closed (md mult : ℚ) (hmd : 0 ≤ md) (hmult : 1 ≤ mult) :
    ∀ (fuel : ℕ) (d e : ℚ), 0 ≤ d → 0 ≤ e → min e md = min d md →
      backoffSchedule md mult e fuel =
        (List.range fuel).map (fun i => min (d * mult ^ i) md) := by
  intro fuel
  induction fuel with
  | zero =>
    intro d e _ _ _
    simp [backoffSchedule]
  | succ fuel ih =>
    intro d e hd he hmin
    have hmult0 : 0 ≤ mult := le_trans zero_le_one hmult
    rw [backoffSchedule, List.range_succ_eq_map, List.map_cons]
    congr 1
    · rw [hmin]
      simp
    · rw [List.map_map]
      have hstep : min (min e md * mult) md = min (d * mult) md := by
        by_cases hcase : d ≤ md
        · rw [min_eq_left hcase] at hmin
          rw [hmin]
        · have hdm : md < d := not_le.mp hcase
          rw [min_eq_right (le_of_lt hdm)] at hmin
          rw [hmin]
          have h1 : md ≤ md * mult := le_mul_of_one_le_right hmd hmult
          have h2 : md ≤ d * mult :=
            le_trans (le_of_lt hdm) (le_mul_of_one_le_right (le_trans hmd (le_of_lt hdm)) hmult)
          rw [min_eq_right h1, min_eq_right h2]
      rw [ih (d * mult) (min e md * mult) (mul_nonneg hd hmult0)
        (mul_nonneg (le_min he hmd) hmult0) hstep]
      apply List.map_congr_left
      intro i _
      simp only [Function.comp]
      congr 1
      rw [pow_succ]
      ring

/-! ### Claim C5 -/

/-- C5: under `retry_with_backoff(max_retries, ...)`, an operation that
always raises a non-retryable error is invoked exactly once and that error
propagates; one that always raises a retryable error is invoked exactly
`max_retries + 1` times and the last error propagates. -/
theorem C5_retry_attempt_counts {T : Type} (op1 op2 : ℕ → Except SdkError T)
    (err1 err2 : ℕ → SdkError) (max_retries : ℕ) (initial_delay max_delay mult : ℚ)
    (hop1 : ∀ n, op1 n = .error (err1 n))
    (hnr : ∀ n, is_retryable_error (err1 n) = false)
    (hop2 : ∀ n, op2 n = .error (err2 n))
    (hr : ∀ n, is_retryable_error (err2 n) = true) :
    ((retry_with_backoff max_retries initial_delay max_delay mult op1).attempts = 1
      ∧ (retry_with_backoff max_retries initial_delay max_delay mult op1).result =
          .error (err1 0))
    ∧ ((retry_with_backoff max_retries initial_delay max_delay mult op2).attempts =
          max_retries + 1
      ∧ (retry_with_backoff max_retries initial_delay max_delay mult op2).result =
          .error (err2 max_retries)) := by
  constructor
  · cases max_retries with
    | zero => simp [retry_with_backoff, retryAux, hop1 0]
    | succ m => simp [retry_with_backoff, retryAux, hop1 0, hnr 0]
  · have := retryAux_all_retryable op2 err2 max_delay mult hop2 hr max_retries 0
      initial_delay []
    rw [retry_with_backoff]
    constructor
    · rw [this.2]
      omega
    · rw [this.1, Nat.zero_add]

/-- C5 witness: an always-401 operation is invoked once; an always-network-
failing operation under `max_retries = 3` is invoked 4 times and the network
error is raised at the end. -/
theorem C5_retry_attempt_counts_witness :
    ((retry_with_backoff 3 1 30 2
        (fun _ => (.error (.authenticationError "denied") : Except SdkError Unit))).attempts = 1
      ∧ (retry_with_backoff 3 1 30 2
        (fun _ => (.error (.authenticationError "denied") : Except SdkError Unit))).result =
          .error (.authenticationError "denied"))
    ∧ ((retry_with_backoff 3 1 30 2
        (fun _ => (.error (.networkError "down") : Except SdkError Unit))).attempts = 3 + 1
      ∧ (retry_with_backoff 3 1 30 2
        (fun _ => (.error (.networkError "down") : Except SdkError Unit))).result =
          .error (.networkError "down")) :=
  C5_retry_attempt_counts
    (fun _ => (.error (.authenticationError "denied") : Except SdkError Unit))
    (fun _ => (.error (.networkError "down") : Except SdkError Unit))
    (fun _ => .authenticationError "denied") (fun _ => .networkError "down")
    3 1 30 2 (fun _ => rfl) (fun _ => rfl) (fun _ => rfl) (fun _ => rfl)

/-! ### Claim C6 -/

/-- C6 (amended): when every error takes the plain-backoff branch, the
successive waits are `min(initial_delay * multiplier ^ i, max_delay)` — for
`initial_delay=1, multiplier=2, max_delay=30` that is 1, 2, 4, ... capped at
30 — and a rate-limit error carrying a nonzero `retry_after = 5` forces that
wait to `min(5, max_delay) = 5` regardless of the geometric schedule (the
delay still doubles afterwards).  (The unamended claim, with no nonzero
qualification on `retry_after`, is refuted by `C6_backoff_schedule_cex`:
`if error.retry_after:` is false for `retry_after = 0`, so the code falls
back to the geometric wait instead of waiting `min(0, max_delay)`.) -/
theorem C6_backoff_schedule {T : Type} (op : ℕ → Except SdkError T)
    (err : ℕ → SdkError) (max_retries : ℕ) (initial_delay max_delay mult : ℚ)
    (hop : ∀ n, op n = .error (err n))
    (hr : ∀ n, is_retryable_error (err n) = true)
    (hnw : ∀ n d, nextWait max_delay d (err n) = min d max_delay)
    (hd : 0 ≤ initial_delay) (hmd : 0 ≤ max_delay) (hmult : 1 ≤ mult) :
    (retry_with_backoff max_retries initial_delay max_delay mult op).waits =
      (List.range max_retries).map (fun i => min (initial_delay * mult ^ i) max_delay)
    ∧ (retry_with_backoff 7 1 30 2
        (fun _ => (.error (.networkError "down") : Except SdkError Unit))).waits =
        [1, 2, 4, 8, 16, 30, 30]
    ∧ (retry_with_backoff 2 1 30 2
        (fun n => if n = 0 then (.error (.rateLimitError "throttled" (some 5)) : Except SdkError Unit)
          else .error (.networkError "down"))).waits =
        [5, 10] := by
  refine ⟨?_, ?_, ?_⟩
  · rw [retry_with_backoff,
      retryAux_waits_plain op err max_delay mult hop hr hnw max_retries 0 initial_delay [],
      backoffSchedule_closed max_delay mult hmd hmult max_retries initial_delay
        initial_delay hd hd rfl]
    simp
  · simp only [retry_with_backoff, retryAux, nextWait, is_retryable_error]
    norm_num
  · simp only [retry_with_backoff, retryAux, nextWait, is_retryable_error]
    norm_num

/-- C6 counterexample: a rate-limit error carrying `retry_after = 0` — a
value, but falsy in Python — is given the geometric wait
`min(initial_delay, max_delay) = 1` instead of the claimed
`min(retry_after, max_delay) = 0`. -/
theorem C6_backoff_schedule_cex :
    (retry_with_backoff 1 1 30 2
      (fun _ => (.error (.rateLimitError "throttled" (some 0)) : Except SdkError Unit))).waits =
      [1]
    ∧ ((1 : ℚ) ≠ min ((0 : ℤ) : ℚ) 30) := by
  constructor
  · simp only [retry_with_backoff, retryAux, nextWait, is_retryable_error]
    norm_num
  · norm_num

/-- C6 witness: the amended schedule instantiated at `max_retries = 7`,
`initial_delay = 1`, `max_delay = 30`, `multiplier = 2` over an
always-network-failing operation. -/
theorem C6_backoff_schedule_witness :
    (retry_with_backoff 7 1 30 2
        (fun _ => (.error (.networkError "down") : Except SdkError Unit))).waits =
      (List.range 7).map (fun i => min ((1 : ℚ) * 2 ^ i) 30)
    ∧ (retry_with_backoff 7 1 30 2
        (fun _ => (.error (.networkError "down") : Except SdkError Unit))).waits =
        [1, 2, 4, 8, 16, 30, 30]
    ∧ (retry_with_backoff 2 1 30 2
        (fun n => if n = 0 then (.error (.rateLimitError "throttled" (some 5)) : Except SdkError Unit)
          else .error (.networkError "down"))).waits =
        [5, 10] :=
  C6_backoff_schedule (fun _ => (.error (.networkError "down") : Except SdkError Unit))
    (fun _ => .networkError "down") 7 1 30 2
    (fun _ => rfl) (fun _ => rfl) (fun _ _ => rfl)
    (by norm_num) (by norm_num) (by norm_num)

/-! ### Claim C7 -/

theorem intRepr_ne_nil (t : ℤ) : intRepr t ≠ [] := by
  unfold intRepr
  by_cases ht : t < 0
  · simp [ht]
  · simp only [ht, if_false]
    exact natRepr_ne_nil _

theorem pyIsSpace_of_isDigit {c : Char} (h : c.isDigit = true) : pyIsSpace c = false := by
  cases hp : pyIsSpace c
  · rfl
  · exfalso
    have hmem : c = ' ' ∨ c = '\t' ∨ c = '\n' ∨ c = '\x0b' ∨ c = '\x0c' ∨ c = '\r' := by
      have hq := hp
      simp only [pyIsSpace, Bool.or_eq_true, decide_eq_true_eq] at hq
      tauto
    rcases hmem with rfl | rfl | rfl | rfl | rfl | rfl <;> exact absurd h (by decide)

theorem dropWhile_eq_self_of_all {p : Char → Bool} {l : List Char}
    (h : ∀ c ∈ l, p c = false) : l.dropWhile p = l := by
  cases l with
  | nil => rfl
  | cons c cs =>
    rw [List.dropWhile_cons, h c (List.mem_cons_self c cs)]
    simp

theorem pyStrip_eq_self_of_all {l : List Char} (h : ∀ c ∈ l, pyIsSpace c = false) :
    pyStrip l = l := by
  unfold pyStrip
  rw [dropWhile_eq_self_of_all h,
    dropWhile_eq_self_of_all (fun c hc => h c (List.mem_reverse.mp hc)),
    List.reverse_reverse]

theorem underscoreDigitsTail_of_digits {l : List Char}
    (h : ∀ c ∈ l, c.isDigit = true) : underscoreDigitsTail l = true := by
  induction l with
  | nil => rfl
  | cons c cs ih =>
    have hc : c.isDigit = true := h c (List.mem_cons_self c cs)
    have hcs : ∀ x ∈ cs, x.isDigit = true := fun x hx => h x (List.mem_cons_of_mem c hx)
    cases cs with
    | nil => simp [underscoreDigitsTail, hc]
    | cons d rest =>
      have hcne : c ≠ '_' := by
        intro he
        rw [he] at hc
        exact absurd hc (by decide)
      simp only [underscoreDigitsTail, if_neg hcne]
      simp [hc, ih hcs]

theorem natRepr_foldl (n : ℕ) :
    (natRepr n).foldl (fun acc d => 10 * acc + (d.toNat - 48)) 0 = n := by
  by_cases h : n = 0
  · subst h
    decide
  · rw [show natRepr n = natReprGo n n from by simp [natRepr, h]]
    exact natReprGo_foldl n n le_rfl

theorem pyDigits?_natRepr (n : ℕ) : pyDigits? (natRepr n) = some n := by
  rcases hcons : natRepr n with _ | ⟨c, cs⟩
  · exact absurd hcons (natRepr_ne_nil n)
  · have hall : ∀ x ∈ natRepr n, x.isDigit = true := fun x hx => mem_natRepr_isDigit hx
    rw [hcons] at hall
    have hc : c.isDigit = true := hall c (List.mem_cons_self c cs)
    have hcs : underscoreDigitsTail cs = true :=
      underscoreDigitsTail_of_digits (fun x hx => hall x (List.mem_cons_of_mem c hx))
    simp only [pyDigits?]
    rw [if_pos (by rw [hc, hcs]; rfl)]
    have hfil : (c :: cs).filter (fun x => x ≠ '_') = c :: cs := by
      apply List.filter_eq_self.mpr
      intro a ha
      have hd : a.isDigit = true := hall a ha
      simp only [decide_eq_true_eq]
      intro he
      rw [he] at hd
      exact absurd hd (by decide)
    rw [hfil, ← hcons, natRepr_foldl]

theorem pyToInt?_intRepr (t : ℤ) : pyToInt? (intRepr t) = some t := by
  have hstrip : pyStrip (intRepr t) = intRepr t := by
    apply pyStrip_eq_self_of_all
    intro c hc
    rcases mem_intRepr hc with h | h
    · exact pyIsSpace_of_isDigit h
    · rw [h]
      decide
  by_cases ht : t < 0
  · have hrepr : intRepr t = '-' :: natRepr t.natAbs := by simp [intRepr, ht]
    rw [hrepr] at hstrip
    rw [hrepr]
    simp only [pyToInt?, hstrip, if_pos rfl, pyDigits?_natRepr]
    rw [Int.ofNat_natAbs_of_nonpos (le_of_lt ht), neg_neg]
    simp
  · have hrepr : intRepr t = natRepr t.natAbs := by simp [intRepr, ht]
    rcases hcons : natRepr t.natAbs with _ | ⟨c, cs⟩
    · exact absurd hcons (natRepr_ne_nil _)
    · have hcdig : c.isDigit = true :=
        mem_natRepr_isDigit (by rw [hcons]; exact List.mem_cons_self _ _)
      have hc1 : c ≠ '-' := by
        intro hcx
        rw [hcx] at hcdig
        exact absurd hcdig (by decide)
      have hc2 : c ≠ '+' := by
        intro hcx
        rw [hcx] at hcdig
        exact absurd hcdig (by decide)
      rw [hrepr, hcons] at hstrip
      rw [hrepr, hcons]
      simp only [pyToInt?, hstrip, if_neg hc1, if_neg hc2]
      simp only [← hcons, pyDigits?_natRepr]
      rw [Int.natAbs_of_nonneg (not_lt.mp ht)]

/-- C7 counterexample: a 429 response with the present, truthy, non-numeric
header `retry-after: soon` makes the unguarded `int("soon")` raise an
uncaught `ValueError` — no `RateLimitError` (nor any `Z402Error`) reaches
the caller — refuting "every response … 429 raises rate_limit" as stated. -/
theorem C7_error_classification_cex :
    handle_response 429 ⟨none, none, none, none⟩ (some "soon") = .uncaughtValueError
    ∧ raisesRateLimit (handle_response 429 ⟨none, none, none, none⟩ (some "soon")) =
        false := by
  constructor
  · rfl
  · rfl

/-- C7 (amended): `_handle_response` classifies statuses as the table says —
400 invalid_request, 401 authentication_error, 402 payment_required carrying
the body's payment amount and resource, 404 not_found, 429 rate_limit
carrying the integer value of the retry-after header when a numeric one is
present (and `None` when the header is absent or empty), every other
non-success status (5xx included) api_error with its status code — transport
failures map to network_error, and `is_retryable_error` is true exactly for
network errors, rate-limit errors, and errors carrying a 5xx status code,
and false for authentication, validation, not-found and payment-required
errors.  The one exception the counterexample forces: a present non-numeric
retry-after header escapes the 429 branch as an uncaught `ValueError`
instead of raising rate_limit. -/
theorem C7_error_classification :
    (∀ body h, handle_response 400 body h =
        .raised (.invalidRequestError (responseMessage body)))
    ∧ (∀ body h, handle_response 401 body h =
        .raised (.authenticationError (responseMessage body)))
    ∧ (∀ body h, handle_response 402 body h =
        .raised (.paymentRequiredError (responseMessage body)
          body.paymentAmount body.paymentResource))
    ∧ (∀ body h, handle_response 404 body h =
        .raised (.notFoundError (responseMessage body)))
    ∧ (∀ body, handle_response 429 body none =
        .raised (.rateLimitError (responseMessage body) none))
    ∧ (∀ body, handle_response 429 body (some "") =
        .raised (.rateLimitError (responseMessage body) none))
    ∧ (∀ body (s : String) (n : ℤ), s ≠ "" → pyToInt? s.data = some n →
        handle_response 429 body (some s) =
          .raised (.rateLimitError (responseMessage body) (some n)))
    ∧ (∀ body (s : String), s ≠ "" → pyToInt? s.data = none →
        handle_response 429 body (some s) = .uncaughtValueError)
    ∧ (∀ n : ℤ, pyToInt? (String.mk (intRepr n)).data = some n
        ∧ String.mk (intRepr n) ≠ "")
    ∧ (∀ status body h, 400 ≤ status → status ∉ ([400, 401, 402, 404, 429] : List ℕ) →
        handle_response status body h =
          .raised (.apiError (responseMessage body) status))
    ∧ (∀ msg, classify_transport_failure msg = .networkError msg)
    ∧ (∀ e, is_retryable_error e = true ↔
        ((∃ m, e = .networkError m) ∨ (∃ m ra, e = .rateLimitError m ra)
          ∨ (∃ sc, e.statusCode = some sc ∧ 500 ≤ sc ∧ sc < 600)))
    ∧ (∀ m, is_retryable_error (.authenticationError m) = false)
    ∧ (∀ m, is_retryable_error (.invalidRequestError m) = false)
    ∧ (∀ m, is_retryable_error (.notFoundError m) = false)
    ∧ (∀ m a r, is_retryable_error (.paymentRequiredError m a r) = false)
    ∧ (∀ status m, 500 ≤ status → status < 600 →
        is_retryable_error (.apiError m status) = true) := by
  refine ⟨?_, ?_, ?_, ?_, ?_, ?_, ?_, ?_, ?_, ?_, ?_, ?_, ?_, ?_, ?_, ?_, ?_⟩
  · intro body h
    simp [handle_response, response_ok]
  · intro body h
    simp [handle_response, response_ok]
  · intro body h
    simp [handle_response, response_ok]
  · intro body h
    simp [handle_response, response_ok]
  · intro body
    simp [handle_response, response_ok]
  · intro body
    simp [handle_response, response_ok]
  · intro body s n hs hparse
    simp [handle_response, response_ok, hs, hparse]
  · intro body s hs hparse
    simp [handle_response, response_ok, hs, hparse]
  · intro n
    constructor
    · rw [show (String.mk (intRepr n)).data = intRepr n from rfl, pyToInt?_intRepr]
    · intro hcontra
      exact intRepr_ne_nil n (congrArg String.data hcontra)
  · intro status body h hge hnot
    simp only [List.mem_cons, List.not_mem_nil, or_false, not_or] at hnot
    obtain ⟨h400, h401, h402, h404, h429⟩ := hnot
    unfold handle_response
    rw [if_neg (by simp [response_ok]; omega), if_neg h401, if_neg h400, if_neg h402,
      if_neg h404, if_neg h429]
  · intro msg
    rfl
  · intro e
    cases e <;> (simp [is_retryable_error, SdkError.statusCode]; try omega)
  · intro m
    rfl
  · intro m
    rfl
  · intro m
    rfl
  · intro m a r
    rfl
  · intro status m h5 h6
    simp only [is_retryable_error, SdkError.statusCode]
    simp only [Bool.and_eq_true, decide_eq_true_eq]
    omega

/-- C7 witness: the table instantiated at a concrete body, the concrete
numeric header `retry-after: 7`, the unknown status 418, and the 503
instance of the retryability characterisation. -/
theorem C7_error_classification_witness :
    handle_response 402 ⟨some "pay up", none, some "0.01", some "/data"⟩ none =
      .raised (.paymentRequiredError "pay up" (some "0.01") (some "/data"))
    ∧ handle_response 429 ⟨none, none, none, none⟩ (some (String.mk (intRepr 7))) =
      .raised (.rateLimitError "API error" (some 7))
    ∧ handle_response 418 ⟨none, none, none, none⟩ none =
      .raised (.apiError "API error" 418)
    ∧ (is_retryable_error (.apiError "boom" 503) = true ↔
        ((∃ m, (.apiError "boom" 503 : SdkError) = .networkError m)
          ∨ (∃ m ra, (.apiError "boom" 503 : SdkError) = .rateLimitError m ra)
          ∨ (∃ sc, (SdkError.apiError "boom" 503).statusCode = some sc ∧ 500 ≤ sc ∧ sc < 600))) :=
  ⟨(C7_error_classification).2.2.1 ⟨some "pay up", none, some "0.01", some "/data"⟩ none,
   (C7_error_classification).2.2.2.2.2.2.1 ⟨none, none, none, none⟩
     (String.mk (intRepr 7)) 7 (by decide) (by decide),
   (C7_error_classification).2.2.2.2.2.2.2.2.2.1 418 ⟨none, none, none, none⟩ none
     (by norm_num) (by decide),
   (C7_error_classification).2.2.2.2.2.2.2.2.2.2.2.1 (.apiError "boom" 503)⟩

/-! ### Claim C9 -/

/-- C9 (amended): the built headers always contain the API-key header, the
Content-Type header and the user-agent header (some value is present for
each), custom headers add their own keys, and a required header keeps its
standard value whenever no custom header collides with its key — but a
colliding custom key displaces the required value (`dict.update` replaces),
which is what refutes the unamended "cannot remove (or displace)" claim in
`C9_required_headers_cex`. -/
theorem C9_required_headers (api_key : String)
    (custom : Option (String → Option String)) :
    (build_headers api_key custom "Content-Type").isSome
    ∧ (build_headers api_key custom "X-API-Key").isSome
    ∧ (build_headers api_key custom "User-Agent").isSome
    ∧ (∀ c k, custom = some c → c k = none →
        build_headers api_key custom k = base_headers api_key k)
    ∧ (∀ c k v, custom = some c → c k = some v →
        build_headers api_key custom k = some v)
    ∧ (custom = none → ∀ k, build_headers api_key custom k = base_headers api_key k) := by
  refine ⟨?_, ?_, ?_, ?_, ?_, ?_⟩
  · cases custom with
    | none => simp [build_headers, base_headers]
    | some c =>
      cases hc : c "Content-Type" <;> simp [build_headers, base_headers, hc]
  · cases custom with
    | none => simp [build_headers, base_headers]
    | some c =>
      cases hc : c "X-API-Key" <;> simp [build_headers, base_headers, hc]
  · cases custom with
    | none => simp [build_headers, base_headers]
    | some c =>
      cases hc : c "User-Agent" <;> simp [build_headers, base_headers, hc]
  · rintro c k rfl hck
    simp [build_headers, hck]
  · rintro c k v rfl hck
    simp [build_headers, hck]
  · rintro rfl k
    rfl

/-- C9 counterexample: a caller-supplied `Content-Type: text/plain` header
displaces the required `Content-Type: application/json` — `dict.update`
replaces colliding keys — refuting "cannot remove (or displace) any of
these required headers" as stated. -/
theorem C9_required_headers_cex :
    build_headers "key"
      (some (fun k => if k = "Content-Type" then some "text/plain" else none))
      "Content-Type" = some "text/plain"
    ∧ (some "text/plain" : Option String) ≠ some "application/json" := by
  constructor
  · rfl
  · decide

/-- C9 witness: with a custom header map binding only `X-Custom`, all three
required headers are present and the custom key is added. -/
theorem C9_required_headers_witness :
    (build_headers "key"
      (some (fun k => if k = "X-Custom" then some "yes" else none)) "Content-Type").isSome
    ∧ build_headers "key"
        (some (fun k => if k = "X-Custom" then some "yes" else none)) "X-Custom" =
        some "yes"
    ∧ build_headers "key"
        (some (fun k => if k = "X-Custom" then some "yes" else none)) "Content-Type" =
        base_headers "key" "Content-Type" :=
  ⟨(C9_required_headers "key"
      (some (fun k => if k = "X-Custom" then some "yes" else none))).1,
   (C9_required_headers "key"
      (some (fun k => if k = "X-Custom" then some "yes" else none))).2.2.2.2.1
      _ "X-Custom" "yes" rfl (by decide),
   (C9_required_headers "key"
      (some (fun k => if k = "X-Custom" then some "yes" else none))).2.2.2.1
      _ "Content-Type" rfl (by decide)⟩

end Z402
